import Mathlib

/-!
# Verification of the cushion/nodecouch CouchDB client core

A shallow embedding, in Lean 4, of the request-dispatch core and the entity
handles of the `nodecouch`/`cushion` CouchDB client
(`nodecouch.js`, `database.js`, `design.js`).

JavaScript runtime values are modelled by the inductive type `JSVal`
(with `undefined` distinct from `null`, opaque callables, and error objects),
JavaScript exceptions by `JsErr`, and every code path that can throw by
`Except JsErr`.  Each handle method's response-shaping continuation is
embedded as a pure function from the two arguments the Dispatcher delivers
to the argument list passed on to the caller's continuation.
-/

set_option autoImplicit false

namespace Cushion

/-- JavaScript exceptions, as thrown or produced by the client code. -/
inductive JsErr where
  /-- exception thrown by `JSON.parse` on malformed input -/
  | parseError (msg : String)
  /-- A `TypeError` (property access on `null`/`undefined`, call of a missing method, …) -/
  | typeError (msg : String)
  /-- transport-level error object emitted by the `http` request (`ECONNREFUSED`, …) -/
  | transportError (msg : String)

/-- JavaScript runtime values, as far as the client code observes them:
JSON data plus `undefined`, callables (opaque, identified by a tag) and
error objects.  Objects are insertion-ordered field lists, as in V8. -/
inductive JSVal where
  | null
  | undefined
  | bool (b : Bool)
  | num (n : Int)
  | str (s : String)
  | arr (elems : List JSVal)
  | obj (fields : List (String × JSVal))
  | func (tag : Nat)
  | exn (e : JsErr)

/-- JavaScript truthiness: `undefined`, `null`, `false`, `0` and `""` are
falsy, every other value (including empty arrays and objects) is truthy. -/
def truthy : JSVal → Bool
  | .null => false
  | .undefined => false
  | .bool b => b
  | .num n => n != 0
  | .str s => s != ""
  | .arr _ => true
  | .obj _ => true
  | .func _ => true
  | .exn _ => true

/-- Embeds `typeof v`, as the JavaScript operator spells it (`typeof null` is
`"object"`, arrays and error objects are `"object"`). -/
def jsTypeof : JSVal → String
  | .null => "object"
  | .undefined => "undefined"
  | .bool _ => "boolean"
  | .num _ => "number"
  | .str _ => "string"
  | .arr _ => "object"
  | .obj _ => "object"
  | .func _ => "function"
  | .exn _ => "object"

/-- Embeds `v === null` (strict equality against the `null` literal). -/
def jsIsNull : JSVal → Bool
  | .null => true
  | _ => false

/-- Embeds `v === true` (strict equality against the `true` literal). -/
def jsIsTrue : JSVal → Bool
  | .bool true => true
  | _ => false

/-- Embeds `v === "lit"` (strict equality against a string literal). -/
def jsIsStr : JSVal → String → Bool
  | .str s, lit => s == lit
  | _, _ => false

/-- Embeds `a || b`: JavaScript logical or, returning the first truthy operand. -/
def jsOr (a b : JSVal) : JSVal :=
  if truthy a then a else b

/-- Field lookup in an insertion-ordered object; a missing key reads as
`undefined`, exactly as JavaScript property access on plain objects. -/
def lookupField : List (String × JSVal) → String → JSVal
  | [], _ => .undefined
  | (k, v) :: rest, f => if k = f then v else lookupField rest f

/-- Property write on an insertion-ordered object: an existing key is
updated in place, a new key is appended, as in V8. -/
def setField : List (String × JSVal) → String → JSVal → List (String × JSVal)
  | [], k, v => [(k, v)]
  | (k', v') :: rest, k, v =>
      if k' = k then (k', v) :: rest else (k', v') :: setField rest k v

/-- Embeds `o.f`: JavaScript property read.  Reading a property of `null` or
`undefined` throws a `TypeError`; reading a field that primitives, arrays
and functions do not carry yields `undefined` (the embedded client only
ever reads named fields such as `error`, `ok`, `rows` off such values). -/
def getField : JSVal → String → Except JsErr JSVal
  | .null, f => .error (.typeError ("Cannot read properties of null (reading " ++ f ++ ")"))
  | .undefined, f => .error (.typeError ("Cannot read properties of undefined (reading " ++ f ++ ")"))
  | .obj fields, f => .ok (lookupField fields f)
  | _, _ => .ok .undefined

/-- Embeds `o.f` under a guard that already established `o` to be truthy (hence
neither `null` nor `undefined`), where the read cannot throw. -/
def getFieldD (v : JSVal) (f : String) : JSVal :=
  match getField v f with
  | .ok x => x
  | .error _ => .undefined

/-- Embeds `o[k] = v`: JavaScript property write.  Writing a property of anything
but a plain object either throws or is silently dropped; the embedded
client only ever writes fields of plain objects, so the other cases are
collapsed into a `TypeError`. -/
def objSet (o : JSVal) (k : String) (v : JSVal) : Except JsErr JSVal :=
  match o with
  | .obj fields => .ok (.obj (setField fields k v))
  | _ => .error (.typeError ("Cannot set properties of non-object (setting " ++ k ++ ")"))

/-! ## The method pattern of the Dispatcher

`nodecouch.js` builds its outbound request with

```
'method': (typeof(properties.method) === 'string' &&
           properties.method.match(this._methodMatch) !== null) ?
          properties.method : 'GET'
```

where `this._methodMatch = /^GET|PUT|POST|DELETE|HEAD|COPY?/i`.  By regex
precedence the anchor `^` binds only to the `GET` alternative and the `?`
only to the final `Y`, so the pattern matches a string iff (ignoring case)
it starts with `GET`, or contains `PUT`, `POST`, `DELETE`, `HEAD`, or
`COP` anywhere.  Case-insensitivity is modelled by uppercasing. -/

/-- Executable prefix test on character lists (one regex alternative
anchored by `^`). -/
def prefixSeq : List Char → List Char → Bool
  | [], _ => true
  | _ :: _, [] => false
  | a :: p, b :: l => a = b && prefixSeq p l

/-- Executable unanchored search for one regex alternative: does `p` occur
as a contiguous run somewhere in `l`? -/
def containsSeq (p : List Char) : List Char → Bool
  | [] => prefixSeq p []
  | c :: rest => prefixSeq p (c :: rest) || containsSeq p rest

/-- ASCII case folding of one character (the verbs of the pattern are all
ASCII, so the regex `i` flag amounts to this). -/
def asciiUpper (c : Char) : Char :=
  if 'a' ≤ c && c ≤ 'z' then Char.ofNat (c.toNat - 32) else c

/-- ASCII case folding of a character list. -/
def upperChars (l : List Char) : List Char :=
  l.map asciiUpper

/-- The test `s.match(/^GET|PUT|POST|DELETE|HEAD|COPY? /i) !== null`
(space added to keep the comment readable): the broken alternation of
`nodecouch.js`, line 14. -/
def methodMatchTest (s : String) : Bool :=
  let u := upperChars s.toList
  prefixSeq "GET".toList u ||
  containsSeq "PUT".toList u ||
  containsSeq "POST".toList u ||
  containsSeq "DELETE".toList u ||
  containsSeq "HEAD".toList u ||
  containsSeq "COP".toList u

/-- The `method` field `nodecouch.prototype.request` puts on the wire,
as a function of `properties.method` (`nodecouch.js`, lines 129–134). -/
def requestMethod : JSVal → JSVal
  | .str s => if methodMatchTest s then .str s else .str "GET"
  | _ => .str "GET"

/-- The `path` field of the outbound request: `'/' + (properties.path || '')`
(`nodecouch.js`, line 135), for string-valued paths. -/
def requestPath (path : JSVal) : String :=
  "/" ++ (match jsOr path (.str "") with
          | .str s => s
          | _ => "")

/-- The `auth` field of the outbound request:
`username + ':' + password` (`nodecouch.js`, line 136). -/
def requestAuth (username password : String) : String :=
  username ++ ":" ++ password

/-! ## Response handling (`nodecouch.prototype._request`)

On `end` the accumulated body is fed through

```
try {
  content = JSON.parse(content);
  callback((content.error) ? content : null,
           (!content.error) ? content : null);
} catch(error) {
  callback(error, null);
}
```

JSON decoding itself is an external, assumed-correct facility (spec §1),
so the handler is embedded as a function of the outcome of `JSON.parse`:
either the exception it threw, or the decoded value.  Note that the
property read `content.error` also sits inside the `try`, and throws when
the body decodes to the JSON value `null`. -/

/-- Arguments the Dispatcher passes to `properties.callback` once the
response body is complete, as a function of the `JSON.parse` outcome. -/
def handleEnd (parsed : Except JsErr JSVal) : JSVal × JSVal :=
  match parsed with
  | .error e => (.exn e, .null)
  | .ok content =>
      match getField content "error" with
      | .error e => (.exn e, .null)
      | .ok errField =>
          (if truthy errField then content else .null,
           if !truthy errField then content else .null)

/-- Exactly one of the two continuation arguments is the JS `null`. -/
def exactlyOneNull (args : JSVal × JSVal) : Prop :=
  (args.1 = .null ∧ args.2 ≠ .null) ∨ (args.1 ≠ .null ∧ args.2 = .null)

/-! ## The transport-error path (`nodecouch.prototype.request`)

```
request.on('error', (function(error) {
  this._responseHandler(properties.callback, error, null);
}).bind(this));
```

`nodecouch.prototype` defines no `_responseHandler` (its members are
listed below, straight from `nodecouch.js`), so the lookup yields
`undefined` and the call throws a `TypeError`; the continuation is never
reached. -/

/-- The members assigned on `nodecouch.prototype` (and in the
constructor) in `nodecouch.js`, in source order. -/
def nodecouchProtoMembers : List String :=
  ["_methodMatch", "_options", "database", "getVersion", "listDatabases",
   "_request", "request"]

/-- Outcome of the `error` event handler of `nodecouch.prototype.request`:
what the caller's continuation would receive if `_responseHandler`
existed, and the thrown `TypeError` given that it does not. -/
def transportErrorHandler (e : JsErr) : Except JsErr (JSVal × JSVal) :=
  if nodecouchProtoMembers.contains "_responseHandler" then
    .ok (.exn e, .null)
  else
    .error (.typeError "this._responseHandler is not a function")

/-! ## Handle-method continuations

Each handle method wraps the caller's continuation in a response-shaping
closure and hands that closure to the Dispatcher.  Every such closure is
embedded as a function from the two values the Dispatcher delivers
(`error`, `response`) to the argument list the closure passes on to the
caller's continuation; a thrown exception is an `Except.error`. -/

/-- Continuation of `nodecouch.prototype.getVersion`:
`if (response !== null) { response = response.version; } callback(error, response);` -/
def getVersionCb (error response : JSVal) : Except JsErr (List JSVal) :=
  if jsIsNull response then
    .ok [error, response]
  else do
    let v ← getField response "version"
    .ok [error, v]

/-- The filtering loop of `nodecouch.prototype.listDatabases`:

```
for (i = 0; response[i]; ++i) {
  if (response[i].substr(0, 1) === '_') {
    response.splice(i, 1);
    --i;
  }
}
```

Splicing index `i` out and re-running the test at the same `i` is exactly
"drop the current head and continue with the tail", so the loop is
embedded structurally over the part of the array not yet visited; it
stops at the first falsy element, leaving the remainder untouched, and
`substr` on a truthy non-string throws. -/
def dbFilter : List JSVal → Except JsErr (List JSVal)
  | [] => .ok []
  | x :: rest =>
      if truthy x then
        match x with
        | .str s =>
            if s.take 1 = "_" then
              dbFilter rest
            else do
              let tail ← dbFilter rest
              .ok (x :: tail)
        | _ => .error (.typeError "response[i].substr is not a function")
      else
        .ok (x :: rest)

/-- Continuation of `nodecouch.prototype.listDatabases` (the filter runs
only when `error === null && response !== null && noCouchRelated === true`;
numeric indexing of non-array responses is outside the embedded paths). -/
def listDatabasesCb (noCouchRelated : JSVal) (error response : JSVal) :
    Except JsErr (List JSVal) :=
  if jsIsNull error && !jsIsNull response && jsIsTrue noCouchRelated then
    match response with
    | .arr elems => do
        let filtered ← dbFilter elems
        .ok [error, .arr filtered]
    | _ => .ok [error, response]
  else
    .ok [error, response]

/-- The key-building loop of `Database.prototype.allDocuments`:
`for (i = 0; response.rows[i]; ++i) documents[response.rows[i].id] = response.rows[i].value.rev;`
over an already-materialised `rows` array, stopping at the first falsy
row.  Object keys are strings; the embedded client only meets string
`id`s, so a non-string `id` is collapsed into a `TypeError`. -/
def allDocsLoop : List JSVal → List (String × JSVal) → Except JsErr (List (String × JSVal))
  | [], acc => .ok acc
  | row :: rest, acc =>
      if truthy row then do
        let idVal ← getField row "id"
        let value ← getField row "value"
        let rev ← getField value "rev"
        match idVal with
        | .str id => allDocsLoop rest (setField acc id rev)
        | _ => .error (.typeError "non-string document id")
      else
        .ok acc

/-- Continuation of `Database.prototype.allDocuments`: on success it
shapes `{total, offset}` and the id→rev mapping; on error `info` is left
`undefined` and `documents` stays the empty object. -/
def allDocumentsCb (error response : JSVal) : Except JsErr (List JSVal) :=
  if jsIsNull error then do
    let total ← getField response "total_rows"
    let offset ← getField response "offset"
    let rows ← getField response "rows"
    let docs ←
      match rows with
      | .arr elems => allDocsLoop elems []
      | .null => .error (.typeError "Cannot read properties of null (reading 0)")
      | .undefined => .error (.typeError "Cannot read properties of undefined (reading 0)")
      | _ => .ok []
    .ok [error, .obj [("total", total), ("offset", offset)], .obj docs]
  else
    .ok [error, .undefined, .obj []]

/-- Continuation of `Database.prototype.cleanup`:
`callback(error, (response) ? true : null);` -/
def cleanupCb (error response : JSVal) : Except JsErr (List JSVal) :=
  .ok [error, if truthy response then .bool true else .null]

/-- Continuation of `Database.prototype.compact` (same shape as `cleanup`):
`callback(error, (response) ? true : null);` -/
def compactCb (error response : JSVal) : Except JsErr (List JSVal) :=
  .ok [error, if truthy response then .bool true else .null]

/-- Continuation of `Database.prototype.create`:
`if (error === null && response.ok === true) { response = true; } callback(error, response);` -/
def createCb (error response : JSVal) : Except JsErr (List JSVal) :=
  if jsIsNull error then do
    let ok ← getField response "ok"
    .ok [error, if jsIsTrue ok then .bool true else response]
  else
    .ok [error, response]

/-- Continuation of `Database.prototype.destroy`:
`if (response && response.ok === true) { response = true; } callback(error, response);` -/
def destroyCb (error response : JSVal) : Except JsErr (List JSVal) :=
  if truthy response then do
    let ok ← getField response "ok"
    .ok [error, if jsIsTrue ok then .bool true else response]
  else
    .ok [error, response]

/-- Continuation of `Database.prototype.ensureFullCommit`:
`callback(error, (error === null && response.ok === true));` — note the
second argument is a boolean, never `null`. -/
def ensureFullCommitCb (error response : JSVal) : Except JsErr (List JSVal) :=
  if jsIsNull error then do
    let ok ← getField response "ok"
    .ok [error, .bool (jsIsTrue ok)]
  else
    .ok [error, .bool false]

/-- Continuation of `Database.prototype.exists`:

```
var exists = true;
if (error && error.error === 'not_found') { error = null; exists = false; }
callback(error, (error === null) ? exists : null);
```

The one place a domain error is reinterpreted as a success. -/
def existsCb (error _response : JSVal) : Except JsErr (List JSVal) :=
  if truthy error then
    if jsIsStr (getFieldD error "error") "not_found" then
      .ok [.null, .bool false]
    else
      .ok [error, if jsIsNull error then .bool true else .null]
  else
    .ok [error, if jsIsNull error then .bool true else .null]

/-- Continuation of `Database.prototype.info`: the caller's continuation
is handed to the Dispatcher unwrapped, so both values pass through. -/
def infoCb (error response : JSVal) : Except JsErr (List JSVal) :=
  .ok [error, response]

/-- Continuation of `Database.prototype.list`: the resolved callback is
handed to the Dispatcher unwrapped. -/
def listCb (error response : JSVal) : Except JsErr (List JSVal) :=
  .ok [error, response]

/-- Continuation of `Database.prototype.purge`:
`callback(error, (error) ? null : response.purged);` -/
def purgeCb (error response : JSVal) : Except JsErr (List JSVal) :=
  if truthy error then
    .ok [error, .null]
  else do
    let purged ← getField response "purged"
    .ok [error, purged]

/-- Continuation of `Database.prototype.revisionLimit`:
`if (error) cb(error, null); else if (limit === null) cb(null, response); else cb(null, true);` -/
def revisionLimitCb (limit : JSVal) (error response : JSVal) : Except JsErr (List JSVal) :=
  if truthy error then
    .ok [error, .null]
  else if jsIsNull limit then
    .ok [.null, response]
  else
    .ok [.null, .bool true]

/-- Continuation of `Database.prototype.show`: the resolved callback is
handed to the Dispatcher unwrapped. -/
def showCb (error response : JSVal) : Except JsErr (List JSVal) :=
  .ok [error, response]

/-- Continuation of `Database.prototype.temporaryView`:

```
var info = null, rows = null;
if (error === null) {
  info = {'total': response.total_rows, 'offset': response.offset};
  rows = response.rows;
}
callback(error, info, rows);
``` -/
def temporaryViewCb (error response : JSVal) : Except JsErr (List JSVal) :=
  if jsIsNull error then do
    let total ← getField response "total_rows"
    let offset ← getField response "offset"
    let rows ← getField response "rows"
    .ok [error, .obj [("total", total), ("offset", offset)], rows]
  else
    .ok [error, .null, .null]

/-- Continuation of `Database.prototype.view` (identical in the source to
the `temporaryView` one, repeated per the source). -/
def viewCb (error response : JSVal) : Except JsErr (List JSVal) :=
  if jsIsNull error then do
    let total ← getField response "total_rows"
    let offset ← getField response "offset"
    let rows ← getField response "rows"
    .ok [error, .obj [("total", total), ("offset", offset)], rows]
  else
    .ok [error, .null, .null]

/-- The handle methods that delegate to the Dispatcher, with the closure
state their continuations capture (`noCouchRelated`, `limit`).  `show`
and `list` are named with a `Fn` suffix to dodge Lean keywords. -/
inductive HandleMethod where
  | getVersion
  | listDatabases (noCouchRelated : JSVal)
  | allDocuments
  | cleanup
  | compact
  | create
  | destroy
  | ensureFullCommit
  | dbExists
  | info
  | listFn
  | purge
  | revisionLimit (limit : JSVal)
  | showFn
  | temporaryView
  | view

/-- The response-shaping continuation a given handle method installs. -/
def handleCb : HandleMethod → JSVal → JSVal → Except JsErr (List JSVal)
  | .getVersion, e, r => getVersionCb e r
  | .listDatabases nc, e, r => listDatabasesCb nc e r
  | .allDocuments, e, r => allDocumentsCb e r
  | .cleanup, e, r => cleanupCb e r
  | .compact, e, r => compactCb e r
  | .create, e, r => createCb e r
  | .destroy, e, r => destroyCb e r
  | .ensureFullCommit, e, r => ensureFullCommitCb e r
  | .dbExists, e, r => existsCb e r
  | .info, e, r => infoCb e r
  | .listFn, e, r => listCb e r
  | .purge, e, r => purgeCb e r
  | .revisionLimit lim, e, r => revisionLimitCb lim e r
  | .showFn, e, r => showCb e r
  | .temporaryView, e, r => temporaryViewCb e r
  | .view, e, r => viewCb e r

/-! ## External encoding facilities

`querystring.stringify`, `encodeURIComponent`-style escaping and
`JSON.stringify` are external, assumed-correct collaborators (spec §1);
they are embedded here with their documented behaviour as far as the
client exercises them. -/

/-- UTF-8 bytes of a character. -/
def utf8Bytes (c : Char) : List Nat :=
  let n := c.toNat
  if n < 0x80 then [n]
  else if n < 0x800 then
    [0xC0 + n / 0x40, 0x80 + n % 0x40]
  else if n < 0x10000 then
    [0xE0 + n / 0x1000, 0x80 + n / 0x40 % 0x40, 0x80 + n % 0x40]
  else
    [0xF0 + n / 0x40000, 0x80 + n / 0x1000 % 0x40, 0x80 + n / 0x40 % 0x40, 0x80 + n % 0x40]

/-- One uppercase hexadecimal digit. -/
def hexDigitU (n : Nat) : Char :=
  "0123456789ABCDEF".toList.getD n '0'

/-- Two-digit uppercase hexadecimal rendering of a byte. -/
def hexByte (n : Nat) : String :=
  String.mk [hexDigitU (n / 16 % 16), hexDigitU (n % 16)]

/-- Characters `encodeURIComponent` leaves unescaped. -/
def qsUnreserved (c : Char) : Bool :=
  c.isAlphanum && c.toNat < 0x80 ||
  c = '-' || c = '_' || c = '.' || c = '!' || c = '~' || c = '*' ||
  c = '\'' || c = '(' || c = ')'

/-- Percent-encoding of a query-string component. -/
def qsEscape (s : String) : String :=
  String.join (s.toList.map fun c =>
    if qsUnreserved c then String.mk [c]
    else String.join ((utf8Bytes c).map fun b => "%" ++ hexByte b))

/-- Rendering of one primitive value, as `querystring` does it. -/
def qsPrim : JSVal → Option String
  | .str s => some s
  | .num n => some (toString n)
  | .bool b => some (if b then "true" else "false")
  | _ => none

/-- The `key=value` pairs of `querystring.stringify`: array values repeat
the key, non-primitive values render empty. -/
def qsPairList : List (String × JSVal) → List String
  | [] => []
  | (k, v) :: rest =>
      (match v with
       | .arr xs => xs.map fun x => qsEscape k ++ "=" ++ qsEscape ((qsPrim x).getD "")
       | _ => [qsEscape k ++ "=" ++ qsEscape ((qsPrim v).getD "")]) ++ qsPairList rest

/-- Successive array indices rendered as object keys, as
`querystring.stringify` treats arrays. -/
def qsIndexFields (i : Nat) : List JSVal → List (String × JSVal)
  | [] => []
  | x :: xs => (toString i, x) :: qsIndexFields (i + 1) xs

/-- Embeds `querystring.stringify(v, sep, eq)`: empty output for anything that
is not an object or array. -/
def qsStringify : JSVal → String
  | .obj fs => String.intercalate "&" (qsPairList fs)
  | .arr xs => String.intercalate "&" (qsPairList (qsIndexFields 0 xs))
  | _ => ""

/-- JSON string-literal escaping (quote, backslash, control characters). -/
def jsonQuote (s : String) : String :=
  "\"" ++
  String.join (s.toList.map fun c =>
    if c = '"' then "\\\""
    else if c = '\\' then "\\\\"
    else if c = '\n' then "\\n"
    else if c = '\r' then "\\r"
    else if c = '\t' then "\\t"
    else if c.toNat < 0x20 then "\\u00" ++ hexByte c.toNat
    else String.mk [c]) ++
  "\""

mutual

/-- Embeds `JSON.stringify` on values reachable from the client's query objects.
`undefined` and callables only occur nested (where array slots render
`null` and object members are dropped before this point by
`jsonCleanTop`); `Error` objects render as empty objects. -/
def jsonStringify : JSVal → String
  | .null => "null"
  | .undefined => "null"
  | .bool b => if b then "true" else "false"
  | .num n => toString n
  | .str s => jsonQuote s
  | .arr xs => "[" ++ jsonStringifyArr xs ++ "]"
  | .obj fs => "\x7b" ++ jsonStringifyObj fs ++ "\x7d"
  | .func _ => "null"
  | .exn _ => "\x7b\x7d"

/-- Comma-separated renderings of array elements. -/
def jsonStringifyArr : List JSVal → String
  | [] => ""
  | [x] => jsonStringify x
  | x :: y :: rest => jsonStringify x ++ "," ++ jsonStringifyArr (y :: rest)

/-- Comma-separated renderings of object members. -/
def jsonStringifyObj : List (String × JSVal) → String
  | [] => ""
  | [(k, v)] => jsonQuote k ++ ":" ++ jsonStringify v
  | (k, v) :: m :: rest =>
      jsonQuote k ++ ":" ++ jsonStringify v ++ "," ++ jsonStringifyObj (m :: rest)

end

mutual

/-- Net effect of `JSON.parse(JSON.stringify(v))`: a deep copy that drops
what JSON cannot carry.  `none` means `JSON.stringify` yielded no output
(`undefined` or a callable at top level) — unreachable behind the
`typeof === 'object'` guard at the call site. -/
def jsonCleanTop : JSVal → Option JSVal
  | .null => some .null
  | .undefined => none
  | .bool b => some (.bool b)
  | .num n => some (.num n)
  | .str s => some (.str s)
  | .arr xs => some (.arr (jsonCleanArr xs))
  | .obj fs => some (.obj (jsonCleanObj fs))
  | .func _ => none
  | .exn _ => some (.obj [])

/-- Array slots: members JSON cannot carry become `null`. -/
def jsonCleanArr : List JSVal → List JSVal
  | [] => []
  | x :: xs => ((jsonCleanTop x).getD .null) :: jsonCleanArr xs

/-- Object members: members JSON cannot carry are dropped. -/
def jsonCleanObj : List (String × JSVal) → List (String × JSVal)
  | [] => []
  | (k, v) :: fs =>
      match jsonCleanTop v with
      | some w => (k, w) :: jsonCleanObj fs
      | none => jsonCleanObj fs

end

/-- Embeds `for (var key in p) p[key] = JSON.stringify(p[key]);` — the
per-value JSON-encoding pass of `Database.prototype.view`; `for…in` over
an array visits its indices, over anything without enumerable properties
it does nothing. -/
def stringifyValues : JSVal → JSVal
  | .obj fs => .obj (fs.map fun kv => (kv.1, .str (jsonStringify kv.2)))
  | .arr xs => .arr (xs.map fun x => .str (jsonStringify x))
  | v => v

/-! ## Request construction by the handle methods -/

/-- The operation description a handle method passes to the Dispatcher:
`method`, `path`, optional `body`, and the continuation it resolved from
its arguments. -/
structure RequestDescription where
  method : String
  path : String
  body : Option JSVal
  callback : JSVal

/-- Extracts `s` when the argument is a string (used only behind a
`typeof === 'string'` guard). -/
def jsStrVal : JSVal → String
  | .str s => s
  | _ => ""

/-- From `Database.prototype.show`: the identifier slot —
`(typeof(docIdOrQueryOrCallback) === 'string') ? '/' + docIdOrQueryOrCallback : ''`. -/
def showResolvedDocId (a : JSVal) : String :=
  if jsTypeof a = "string" then "/" ++ jsStrVal a else ""

/-- From `Database.prototype.show`: the query slot — first argument if
`typeof === 'object'`, else second argument if `typeof === 'object'`,
else empty. -/
def showResolvedQuery (a b : JSVal) : String :=
  if jsTypeof a = "object" then "?" ++ qsStringify a
  else if jsTypeof b = "object" then "?" ++ qsStringify b
  else ""

/-- From `Database.prototype.show`: the continuation slot —
`callback = callback || queryOrCallback || docIdOrQueryOrCallback`. -/
def showResolvedCallback (a b c : JSVal) : JSVal :=
  jsOr (jsOr c b) a

/-- The request description built by `Database.prototype.show`
(`a`, `b`, `c` are `docIdOrQueryOrCallback`, `queryOrCallback`,
`callback`). -/
def showRequest (dbName design showName : String) (a b c : JSVal) :
    RequestDescription where
  method := "GET"
  path := dbName ++ "/_design/" ++ design ++ "/_show/" ++ showName ++
          showResolvedDocId a ++ showResolvedQuery a b
  body := none
  callback := showResolvedCallback a b c

/-- From `Database.prototype.temporaryView`: the reduce slot —
`(typeof(reduceOrParamsOrCallback) === 'string') ? reduceOrParamsOrCallback : null`. -/
def temporaryViewResolvedReduce (b : JSVal) : JSVal :=
  if jsTypeof b = "string" then b else .null

/-- From `Database.prototype.temporaryView`: the params slot —
`(typeof(reduceOrParamsOrCallback) === 'object') ? reduceOrParamsOrCallback : paramsOrCallback`. -/
def temporaryViewResolvedParams (b c : JSVal) : JSVal :=
  if jsTypeof b = "object" then b else c

/-- From `Database.prototype.temporaryView`: the continuation slot —
`callback = callback || paramsOrCallback || reduceOrParamsOrCallback`. -/
def temporaryViewResolvedCallback (b c d : JSVal) : JSVal :=
  jsOr (jsOr d c) b

/-- The request description built by `Database.prototype.temporaryView`
(`b`, `c`, `d` are `reduceOrParamsOrCallback`, `paramsOrCallback`,
`callback`). -/
def temporaryViewRequest (dbName : String) (map b c d : JSVal) :
    RequestDescription :=
  let reduce := temporaryViewResolvedReduce b
  let params := qsStringify (temporaryViewResolvedParams b c)
  { method := "POST"
  , path := dbName ++ "/_temp_view" ++ (if params ≠ "" then "?" ++ params else "")
  , body := some (if jsIsNull reduce then .obj [("map", map)]
                  else .obj [("map", map), ("reduce", reduce)])
  , callback := temporaryViewResolvedCallback b c d }

/-- The request description `Database.prototype.view` is written to
build.  As committed, the function has no executable semantics: line 519
reads `var paramsOrCallback[key] = JSON.stringify(paramsOrCallback[key]);`,
a SyntaxError (`var` before a member expression), and line 523 assigns
the undeclared `path` under the file's `'use strict'`.  This embedding
reads line 519 as the plain assignment it abbreviates and `path` as a
local, which is the only executable reading of the surrounding code. -/
def viewRequest (dbName design viewName : String) (paramsOrCallback callback : JSVal) :
    RequestDescription :=
  let params :=
    if jsTypeof paramsOrCallback = "object" then
      "?" ++ qsStringify (stringifyValues ((jsonCleanTop paramsOrCallback).getD .null))
    else ""
  { method := "GET"
  , path := dbName ++ "/_design/" ++ design ++ "/_view/" ++ viewName ++ params
  , body := none
  , callback := jsOr callback paramsOrCallback }

/-! ## The document factory and the design-document handle -/

/-- The two document variants `Database.prototype.document` can return. -/
inductive DocVariant where
  | document
  | design

/-- Embeds `Database.prototype.document`:
`var Doc = (docId && docId.match(/^_design\//)) ? Design : Document;` —
`docId.match` on a truthy non-string throws. -/
def documentFactory (docId : JSVal) : Except JsErr DocVariant :=
  if truthy docId then
    match docId with
    | .str s =>
        .ok (if prefixSeq "_design/".toList s.toList then .design else .document)
    | _ => .error (.typeError "docId.match is not a function")
  else
    .ok .document

/-- What `Design.prototype.show` returns: the design document itself
(after a write) or a read value. -/
inductive DesignShowRet where
  | self
  | got (v : JSVal)

/-- Embeds `Design.prototype.show`:

```
if (content) {
  this._body.shows = this._body.shows || {};
  this._body.shows[name] = content;
}
return ((content) ? this
                  : (this._body.shows) ? this._body.shows[name] : undefined);
```

State is passed explicitly: the result carries the (possibly updated)
`_body` next to the returned value; the in-place mutation of the aliased
`shows` table is rendered as updating the entry and writing the table
back to the body. -/
def designShow (body : JSVal) (name : String) (content : JSVal) :
    Except JsErr (JSVal × DesignShowRet) :=
  if truthy content then do
    let shows0 ← getField body "shows"
    let shows1 ← objSet (jsOr shows0 (.obj [])) name content
    let body1 ← objSet body "shows" shows1
    .ok (body1, .self)
  else do
    let shows ← getField body "shows"
    if truthy shows then do
      let v ← getField shows name
      .ok (body, .got v)
    else
      .ok (body, .got .undefined)

/-- Modelled from the spec: `document.js` is not under `src/` (only its
callers are), and the spec gives a Document handle "an in-memory body
(mapping of field name to arbitrary JSON value)" with the design
sub-mappings "created lazily"; a fresh handle therefore starts from the
empty mapping. -/
def initialDocumentBody : JSVal :=
  .obj []

/-! ## Spec-level claim predicates

Formalisations of spec sentences that turn out not to hold of the code,
stated here so that a concrete counterexample can refute them. -/

/-- The six verbs of the spec, as uppercase character lists. -/
def sixVerbChars : List (List Char) :=
  ["GET".toList, "PUT".toList, "POST".toList, "DELETE".toList,
   "HEAD".toList, "COPY".toList]

/-- The spec claim about method validation, at one `properties.method`
value: a string equal (case-insensitively) to one of the six verbs is
sent as given; every other value is replaced by `GET`. -/
def c1ClaimAt (v : JSVal) : Prop :=
  requestMethod v =
    match v with
    | .str s => if upperChars s.toList ∈ sixVerbChars then .str s else .str "GET"
    | _ => .str "GET"

/-- The spec claim about response classification, at one `JSON.parse`
outcome: a parse failure is delivered as `(failure, null)`, a parsed
value carrying a truthy `error` field as `(value, null)`, anything else
as `(null, value)`; and exactly one of the two arguments is non-null. -/
def c3ClaimAt (parsed : Except JsErr JSVal) : Prop :=
  (match parsed with
   | .error e => handleEnd parsed = (.exn e, .null)
   | .ok v =>
       if (match v with
           | .obj fs => truthy (lookupField fs "error")
           | _ => false) = true
       then handleEnd parsed = (v, .null)
       else handleEnd parsed = (.null, v)) ∧
  exactlyOneNull (handleEnd parsed)

/-- The spec claim about error propagation, at one handle method and one
Dispatcher-delivered error: the continuation receives the error unchanged
first and `null` second. -/
def c5ClaimAt (m : HandleMethod) (e : JSVal) : Prop :=
  ∃ args, handleCb m e .null = .ok args ∧
    args.get? 0 = some e ∧ args.get? 1 = some JSVal.null

/-! ## General lemmas about the JavaScript model -/

theorem lookupField_setField_self (fs : List (String × JSVal)) (k : String) (v : JSVal) :
    lookupField (setField fs k v) k = v := by
  induction fs with
  | nil => simp [setField, lookupField]
  | cons hd tl ih =>
      obtain ⟨k', v'⟩ := hd
      by_cases h : k' = k
      · simp [setField, h, lookupField]
      · simp [setField, h, lookupField, ih]

theorem truthy_not_null {v : JSVal} (h : truthy v = true) : jsIsNull v = false := by
  cases v <;> simp_all [truthy, jsIsNull]

theorem getField_ok_of_ne {v : JSVal} (h1 : v ≠ .null) (h2 : v ≠ .undefined) (f : String) :
    getField v f = .ok (getFieldD v f) := by
  cases v <;> simp_all [getField, getFieldD]

theorem prefixSeq_iff (p l : List Char) : prefixSeq p l = true ↔ p <+: l := by
  induction p generalizing l with
  | nil => simp [prefixSeq, List.nil_prefix]
  | cons a p ih =>
      cases l with
      | nil => simp [prefixSeq]
      | cons b l => simp [prefixSeq, List.cons_prefix_cons, ih, and_comm]

theorem containsSeq_iff (p l : List Char) : containsSeq p l = true ↔ p <:+: l := by
  induction l with
  | nil => simp [containsSeq, prefixSeq_iff]
  | cons c rest ih =>
      simp [containsSeq, prefixSeq_iff, ih, List.infix_cons_iff]

/-! ## C1: method validation in the Dispatcher -/

/-- C1, counterexample.  The spec says a method value that is not one of
the six verbs is replaced by `GET`; but `"COP"` — not a verb — matches the
broken pattern (the `?` makes the `Y` of `COPY` optional), so the
Dispatcher sends `COP` verbatim. -/
theorem c1_counterexample_COP : ¬ c1ClaimAt (.str "COP") := by
  intro h
  have h1 : requestMethod (.str "COP") = .str "COP" := rfl
  rw [c1ClaimAt, h1, if_neg (by decide)] at h
  exact absurd (JSVal.str.inj h) (by decide)

/-- C1, amended.  The Dispatcher sends `properties.method` verbatim
exactly when it is a string that, after ASCII case folding, starts with
`GET` or contains `PUT`, `POST`, `DELETE`, `HEAD` or `COP` anywhere
(the alternation of `/^GET|PUT|POST|DELETE|HEAD|COPY?/i` binds the `^` to
`GET` alone and makes the final `Y` optional); in particular each of the
six spec verbs is preserved, and every non-string value is replaced by
`GET`. -/
theorem requestMethod_characterisation :
    (∀ s : String,
        (requestMethod (.str s) = .str s ↔
          ("GET".toList <+: upperChars s.toList ∨
           "PUT".toList <:+: upperChars s.toList ∨
           "POST".toList <:+: upperChars s.toList ∨
           "DELETE".toList <:+: upperChars s.toList ∨
           "HEAD".toList <:+: upperChars s.toList ∨
           "COP".toList <:+: upperChars s.toList))) ∧
    (∀ s : String, upperChars s.toList ∈ sixVerbChars →
        requestMethod (.str s) = .str s) ∧
    (∀ v : JSVal, jsTypeof v ≠ "string" → requestMethod v = .str "GET") := by
  refine ⟨?_, ?_, ?_⟩
  · intro s
    by_cases h : methodMatchTest s
    · have hr : "GET".toList <+: upperChars s.toList ∨
          "PUT".toList <:+: upperChars s.toList ∨
          "POST".toList <:+: upperChars s.toList ∨
          "DELETE".toList <:+: upperChars s.toList ∨
          "HEAD".toList <:+: upperChars s.toList ∨
          "COP".toList <:+: upperChars s.toList := by
        simpa [methodMatchTest, Bool.or_eq_true, prefixSeq_iff, containsSeq_iff,
               or_assoc] using h
      exact iff_of_true (by simp [requestMethod, h]) hr
    · have hs : s ≠ "GET" := by
        rintro rfl
        exact h (by decide)
      have hr : ¬ ("GET".toList <+: upperChars s.toList ∨
          "PUT".toList <:+: upperChars s.toList ∨
          "POST".toList <:+: upperChars s.toList ∨
          "DELETE".toList <:+: upperChars s.toList ∨
          "HEAD".toList <:+: upperChars s.toList ∨
          "COP".toList <:+: upperChars s.toList) := by
        intro hx
        refine h ?_
        simpa [methodMatchTest, Bool.or_eq_true, prefixSeq_iff, containsSeq_iff,
               or_assoc] using hx
      refine iff_of_false ?_ hr
      simp only [requestMethod, if_neg h]
      intro heq
      exact hs (JSVal.str.inj heq).symm
  · intro s hs
    have hm : methodMatchTest s = true := by
      simp only [sixVerbChars, List.mem_cons, List.not_mem_nil, or_false] at hs
      rcases hs with h | h | h | h | h | h <;>
        · unfold methodMatchTest
          rw [h]
          decide
    simp [requestMethod, hm]
  · intro v hv
    cases v <;> first | (exact absurd rfl hv) | rfl

/-- C1, witness for the amended theorem: `put` (a lowercase verb) is
preserved, a non-string method is replaced by `GET`. -/
theorem requestMethod_characterisation_witness :
    requestMethod (.str "put") = .str "put" ∧ requestMethod .null = .str "GET" :=
  ⟨requestMethod_characterisation.2.1 "put" (by decide),
   requestMethod_characterisation.2.2 .null (by decide)⟩

/-! ## C2: the transport-error path -/

/-- C2.  The spec says a transport `error` event makes the Dispatcher
invoke the continuation once with `(transportError, null)`.  The code
instead calls `this._responseHandler(properties.callback, error, null)`;
no `_responseHandler` is ever defined on `nodecouch.prototype`, so for
every transport error the handler throws a `TypeError` and the
continuation is never invoked. -/
theorem transport_error_throws_typeError :
    (∀ e : JsErr, transportErrorHandler e =
        .error (.typeError "this._responseHandler is not a function")) ∧
    nodecouchProtoMembers.contains "_responseHandler" = false :=
  ⟨fun _ => rfl, by decide⟩

/-! ## C3: response classification -/

/-- C3, counterexample.  The response body `null` is valid JSON, carries
no truthy `error` field, and is not a parse failure, so the claim
predicts the continuation receives `(null, parsedBody)`; but the
handler's `content.error` read throws on the parsed `null` and the
`catch` delivers `(TypeError, null)` instead. -/
theorem c3_counterexample_null_body : ¬ c3ClaimAt (.ok .null) := by
  rintro ⟨h1, -⟩
  have h2 : handleEnd (.ok JSVal.null) = (JSVal.null, JSVal.null) := by
    simpa using h1
  have h3 : handleEnd (.ok JSVal.null) =
      (.exn (.typeError "Cannot read properties of null (reading error)"), .null) := rfl
  rw [h3] at h2
  exact JSVal.noConfusion (Prod.ext_iff.mp h2).1

/-- C3, amended.  For every `JSON.parse` outcome: a parse failure is
delivered as `(thrownError, null)`; a body that parses to the JSON value
`null` is delivered as `(TypeError, null)`, because the `error`-field
read inside the `try` throws; any other parsed value with a truthy
`error` field is delivered as `(parsedValue, null)`, and without one as
`(null, parsedValue)`; in every case exactly one of the two continuation
arguments is non-null. -/
theorem handleEnd_classification :
    (∀ e : JsErr, handleEnd (.error e) = (.exn e, .null)) ∧
    (handleEnd (.ok .null) =
      (.exn (.typeError "Cannot read properties of null (reading error)"), .null)) ∧
    (∀ v : JSVal, v ≠ .null → v ≠ .undefined →
      truthy (getFieldD v "error") = true → handleEnd (.ok v) = (v, .null)) ∧
    (∀ v : JSVal, v ≠ .null → v ≠ .undefined →
      truthy (getFieldD v "error") = false → handleEnd (.ok v) = (.null, v)) ∧
    (∀ p : Except JsErr JSVal, exactlyOneNull (handleEnd p)) := by
  refine ⟨fun e => rfl, rfl, ?_, ?_, ?_⟩
  · intro v h1 h2 ht
    simp [handleEnd, getField_ok_of_ne h1 h2, ht]
  · intro v h1 h2 ht
    simp [handleEnd, getField_ok_of_ne h1 h2, ht]
  · intro p
    rcases p with e | v
    · exact Or.inr ⟨by simp [handleEnd], rfl⟩
    · cases v with
      | null => exact Or.inr ⟨by simp [handleEnd, getField], rfl⟩
      | undefined => exact Or.inr ⟨by simp [handleEnd, getField], rfl⟩
      | obj fs =>
          by_cases ht : truthy (lookupField fs "error")
          · exact Or.inr ⟨by simp [handleEnd, getField, ht], by simp [handleEnd, getField, ht]⟩
          · exact Or.inl ⟨by simp [handleEnd, getField, ht], by simp [handleEnd, getField, ht]⟩
      | bool b => exact Or.inl ⟨by simp [handleEnd, getField, truthy], by simp [handleEnd, getField, truthy]⟩
      | num n => exact Or.inl ⟨by simp [handleEnd, getField, truthy], by simp [handleEnd, getField, truthy]⟩
      | str s => exact Or.inl ⟨by simp [handleEnd, getField, truthy], by simp [handleEnd, getField, truthy]⟩
      | arr xs => exact Or.inl ⟨by simp [handleEnd, getField, truthy], by simp [handleEnd, getField, truthy]⟩
      | func t => exact Or.inl ⟨by simp [handleEnd, getField, truthy], by simp [handleEnd, getField, truthy]⟩
      | exn e => exact Or.inl ⟨by simp [handleEnd, getField, truthy], by simp [handleEnd, getField, truthy]⟩

/-- C3, witness: a domain error body is delivered as the error, a plain
body as the success value. -/
theorem handleEnd_classification_witness :
    handleEnd (.ok (.obj [("error", .str "not_found")])) =
      (.obj [("error", .str "not_found")], .null) ∧
    handleEnd (.ok (.obj [("ok", .bool true)])) =
      (.null, .obj [("ok", .bool true)]) :=
  ⟨handleEnd_classification.2.2.1 _ (fun h => JSVal.noConfusion h)
      (fun h => JSVal.noConfusion h) (by decide),
   handleEnd_classification.2.2.2.1 _ (fun h => JSVal.noConfusion h)
      (fun h => JSVal.noConfusion h) (by decide)⟩

/-! ## C4: the view request and its result shaping -/

/-- C4.  What `Database.prototype.view` is written to do (with the stray
`var` of line 519 dropped and `path` read as a local, the only executable
reading of the function — see `viewRequest`): `view("d","v",{key:"x"},cb)`
on a database named `db` issues a `GET` whose path is
`db/_design/d/_view/v?key=%22x%22` — each query value JSON-stringified,
then URL-encoded — with `cb` as the continuation; and its shaping
continuation turns a success `{total_rows: 2, offset: 0, rows: R}` into
`cb(null, {total: 2, offset: 0}, R)`. -/
theorem viewRequest_intended_scenario :
    (viewRequest "db" "d" "v" (.obj [("key", .str "x")]) (.func 0)).path =
      "db/_design/d/_view/v?key=%22x%22" ∧
    (viewRequest "db" "d" "v" (.obj [("key", .str "x")]) (.func 0)).method = "GET" ∧
    (viewRequest "db" "d" "v" (.obj [("key", .str "x")]) (.func 0)).callback = .func 0 ∧
    (∀ rows : JSVal,
        viewCb .null (.obj [("total_rows", .num 2), ("offset", .num 0), ("rows", rows)]) =
          .ok [.null, .obj [("total", .num 2), ("offset", .num 0)], rows]) :=
  ⟨rfl, rfl, rfl, fun _ => rfl⟩

/-! ## Error-path behaviour of each shaping continuation

The Dispatcher delivers an error always paired with a `null` response
(`handleEnd_classification`), so the error path of every continuation is
its behaviour at `(e, null)` for truthy `e`. -/

theorem getVersionCb_err (e : JSVal) : getVersionCb e .null = .ok [e, .null] := rfl

theorem listDatabasesCb_err (nc e : JSVal) (he : truthy e = true) :
    listDatabasesCb nc e .null = .ok [e, .null] := by
  simp [listDatabasesCb, truthy_not_null he]

theorem allDocumentsCb_err (e : JSVal) (he : truthy e = true) :
    allDocumentsCb e .null = .ok [e, .undefined, .obj []] := by
  simp [allDocumentsCb, truthy_not_null he]

theorem cleanupCb_err (e : JSVal) : cleanupCb e .null = .ok [e, .null] := rfl

theorem compactCb_err (e : JSVal) : compactCb e .null = .ok [e, .null] := rfl

theorem createCb_err (e : JSVal) (he : truthy e = true) :
    createCb e .null = .ok [e, .null] := by
  simp [createCb, truthy_not_null he]

theorem destroyCb_err (e : JSVal) : destroyCb e .null = .ok [e, .null] := rfl

theorem ensureFullCommitCb_err (e : JSVal) (he : truthy e = true) :
    ensureFullCommitCb e .null = .ok [e, .bool false] := by
  simp [ensureFullCommitCb, truthy_not_null he]

theorem existsCb_err_other (e : JSVal) (he : truthy e = true)
    (hn : jsIsStr (getFieldD e "error") "not_found" = false) :
    existsCb e .null = .ok [e, .null] := by
  simp [existsCb, he, hn, truthy_not_null he]

theorem existsCb_err_notFound (e : JSVal) (he : truthy e = true)
    (hn : jsIsStr (getFieldD e "error") "not_found" = true) :
    existsCb e .null = .ok [.null, .bool false] := by
  simp [existsCb, he, hn]

theorem infoCb_err (e : JSVal) : infoCb e .null = .ok [e, .null] := rfl

theorem listCb_err (e : JSVal) : listCb e .null = .ok [e, .null] := rfl

theorem purgeCb_err (e : JSVal) (he : truthy e = true) :
    purgeCb e .null = .ok [e, .null] := by
  simp [purgeCb, he]

theorem revisionLimitCb_err (lim e : JSVal) (he : truthy e = true) :
    revisionLimitCb lim e .null = .ok [e, .null] := by
  simp [revisionLimitCb, he]

theorem showCb_err (e : JSVal) : showCb e .null = .ok [e, .null] := rfl

theorem temporaryViewCb_err (e : JSVal) (he : truthy e = true) :
    temporaryViewCb e .null = .ok [e, .null, .null] := by
  simp [temporaryViewCb, truthy_not_null he]

theorem viewCb_err (e : JSVal) (he : truthy e = true) :
    viewCb e .null = .ok [e, .null, .null] := by
  simp [viewCb, truthy_not_null he]

/-! ## C5: error propagation through the handle methods -/

/-- C5, counterexample.  The spec says every handle method forwards a
Dispatcher error unchanged with the second continuation argument forced
to `null`; but `ensureFullCommit` evaluates
`(error === null && response.ok === true)` as its second argument, which
is the boolean `false` — not `null` — whenever an error is delivered. -/
theorem c5_counterexample_ensureFullCommit :
    ¬ c5ClaimAt .ensureFullCommit (.obj [("error", .str "conflict")]) := by
  rintro ⟨args, h1, -, h3⟩
  have he : handleCb .ensureFullCommit (.obj [("error", .str "conflict")]) .null =
      .ok [.obj [("error", .str "conflict")], .bool false] := rfl
  rw [he] at h1
  have := Except.ok.inj h1
  subst this
  exact JSVal.noConfusion (Option.some.inj h3)

/-- C5, amended.  For every truthy error the Dispatcher delivers (it
always delivers it with a `null` response), every handle method passes
the error through unchanged as the first continuation argument; the
second argument is `null` in every method except `ensureFullCommit`
(which passes the boolean `false`), `allDocuments` (which passes
`undefined`, followed by an empty mapping), and `exists` (which turns a
`not_found` domain error into `(null, false)` and forwards every other
error with a `null` second argument). -/
theorem handle_error_propagation (e : JSVal) (he : truthy e = true) :
    (handleCb .getVersion e .null = .ok [e, .null]) ∧
    (∀ nc, handleCb (.listDatabases nc) e .null = .ok [e, .null]) ∧
    (handleCb .cleanup e .null = .ok [e, .null]) ∧
    (handleCb .compact e .null = .ok [e, .null]) ∧
    (handleCb .create e .null = .ok [e, .null]) ∧
    (handleCb .destroy e .null = .ok [e, .null]) ∧
    (handleCb .info e .null = .ok [e, .null]) ∧
    (handleCb .listFn e .null = .ok [e, .null]) ∧
    (handleCb .showFn e .null = .ok [e, .null]) ∧
    (handleCb .purge e .null = .ok [e, .null]) ∧
    (∀ lim, handleCb (.revisionLimit lim) e .null = .ok [e, .null]) ∧
    (handleCb .temporaryView e .null = .ok [e, .null, .null]) ∧
    (handleCb .view e .null = .ok [e, .null, .null]) ∧
    (handleCb .ensureFullCommit e .null = .ok [e, .bool false]) ∧
    (handleCb .allDocuments e .null = .ok [e, .undefined, .obj []]) ∧
    (jsIsStr (getFieldD e "error") "not_found" = false →
        handleCb .dbExists e .null = .ok [e, .null]) ∧
    (jsIsStr (getFieldD e "error") "not_found" = true →
        handleCb .dbExists e .null = .ok [.null, .bool false]) :=
  ⟨getVersionCb_err e,
   fun nc => listDatabasesCb_err nc e he,
   cleanupCb_err e,
   compactCb_err e,
   createCb_err e he,
   destroyCb_err e,
   infoCb_err e,
   listCb_err e,
   showCb_err e,
   purgeCb_err e he,
   fun lim => revisionLimitCb_err lim e he,
   temporaryViewCb_err e he,
   viewCb_err e he,
   ensureFullCommitCb_err e he,
   allDocumentsCb_err e he,
   fun hn => existsCb_err_other e he hn,
   fun hn => existsCb_err_notFound e he hn⟩

/-- C5, witness for the amended theorem, at a concrete domain error. -/
theorem handle_error_propagation_witness :
    handleCb .create (.obj [("error", .str "conflict")]) .null =
      .ok [.obj [("error", .str "conflict")], .null] ∧
    handleCb .ensureFullCommit (.obj [("error", .str "conflict")]) .null =
      .ok [.obj [("error", .str "conflict")], .bool false] := by
  obtain ⟨-, -, -, -, h5, -, -, -, -, -, -, -, -, h14, -, -, -⟩ :=
    handle_error_propagation (.obj [("error", .str "conflict")]) (by decide)
  exact ⟨h5, h14⟩

/-! ## C6: the single error reclassification, in `exists` -/

/-- C6.  `database.exists` answers `(null, false)` for a `not_found`
domain error and `(null, true)` for every success delivery; and it is the
only handle method that converts an error into a success result — every
other method hands the Dispatcher's error through unchanged as the first
continuation argument. -/
theorem exists_sole_reclassification :
    (∀ error response : JSVal, truthy error = true →
        jsIsStr (getFieldD error "error") "not_found" = true →
        existsCb error response = .ok [.null, .bool false]) ∧
    (∀ response : JSVal, existsCb .null response = .ok [.null, .bool true]) ∧
    (∀ (m : HandleMethod) (e : JSVal), truthy e = true → m ≠ .dbExists →
        ∃ args, handleCb m e .null = .ok args ∧ args.get? 0 = some e) := by
  refine ⟨?_, fun _ => rfl, ?_⟩
  · intro error response he hn
    simp [existsCb, he, hn]
  · intro m e he hm
    cases m with
    | getVersion => exact ⟨_, getVersionCb_err e, rfl⟩
    | listDatabases nc => exact ⟨_, listDatabasesCb_err nc e he, rfl⟩
    | allDocuments => exact ⟨_, allDocumentsCb_err e he, rfl⟩
    | cleanup => exact ⟨_, cleanupCb_err e, rfl⟩
    | compact => exact ⟨_, compactCb_err e, rfl⟩
    | create => exact ⟨_, createCb_err e he, rfl⟩
    | destroy => exact ⟨_, destroyCb_err e, rfl⟩
    | ensureFullCommit => exact ⟨_, ensureFullCommitCb_err e he, rfl⟩
    | dbExists => exact absurd rfl hm
    | info => exact ⟨_, infoCb_err e, rfl⟩
    | listFn => exact ⟨_, listCb_err e, rfl⟩
    | purge => exact ⟨_, purgeCb_err e he, rfl⟩
    | revisionLimit lim => exact ⟨_, revisionLimitCb_err lim e he, rfl⟩
    | showFn => exact ⟨_, showCb_err e, rfl⟩
    | temporaryView => exact ⟨_, temporaryViewCb_err e he, rfl⟩
    | view => exact ⟨_, viewCb_err e he, rfl⟩

/-- C6, witness: the stubbed `not_found` error yields `(null, false)`,
a stubbed info object yields `(null, true)`, and `create` (any other
method) keeps a conflict error in first position. -/
theorem exists_sole_reclassification_witness :
    existsCb (.obj [("error", .str "not_found")]) .null = .ok [.null, .bool false] ∧
    existsCb .null (.obj [("db_name", .str "testdb")]) = .ok [.null, .bool true] ∧
    ∃ args, handleCb .create (.obj [("error", .str "conflict")]) .null = .ok args ∧
      args.get? 0 = some (.obj [("error", .str "conflict")]) :=
  ⟨exists_sole_reclassification.1 _ .null (by decide) (by decide),
   exists_sole_reclassification.2.1 _,
   exists_sole_reclassification.2.2 .create _ (by decide)
     (fun h => HandleMethod.noConfusion h)⟩

/-! ## C7: three-trailing-slot argument resolution -/

/-- C7.  Calling a method with three trailing optional slots (identifier,
query/body mapping, continuation) with only a mapping and a callable
binds the mapping to the query/body slot, the callable to the
continuation, and leaves the identifier slot at its default: for `show`
the document-id segment stays empty and the query string comes from the
mapping; for `temporaryView` the reduce slot stays `null`, the params
slot gets the mapping, and the built request reflects both. -/
theorem three_slot_resolution :
    (∀ (fs : List (String × JSVal)) (k : Nat),
        showResolvedDocId (.obj fs) = "" ∧
        showResolvedQuery (.obj fs) (.func k) = "?" ++ qsStringify (.obj fs) ∧
        showResolvedCallback (.obj fs) (.func k) .undefined = .func k) ∧
    (∀ (fs : List (String × JSVal)) (k : Nat) (db design showName : String),
        (showRequest db design showName (.obj fs) (.func k) .undefined).path =
          db ++ "/_design/" ++ design ++ "/_show/" ++ showName ++
            ("?" ++ qsStringify (.obj fs)) ∧
        (showRequest db design showName (.obj fs) (.func k) .undefined).callback = .func k) ∧
    (∀ (fs : List (String × JSVal)) (k : Nat),
        temporaryViewResolvedReduce (.obj fs) = .null ∧
        temporaryViewResolvedParams (.obj fs) (.func k) = .obj fs ∧
        temporaryViewResolvedCallback (.obj fs) (.func k) .undefined = .func k) ∧
    (∀ (fs : List (String × JSVal)) (k : Nat) (db : String) (map : JSVal),
        (temporaryViewRequest db map (.obj fs) (.func k) .undefined).body =
          some (.obj [("map", map)]) ∧
        (temporaryViewRequest db map (.obj fs) (.func k) .undefined).callback = .func k) := by
  refine ⟨fun fs k => ⟨rfl, rfl, rfl⟩, ?_, fun fs k => ⟨rfl, rfl, rfl⟩,
          fun fs k db map => ⟨rfl, rfl⟩⟩
  intro fs k db design showName
  constructor
  · show db ++ "/_design/" ++ design ++ "/_show/" ++ showName ++
        showResolvedDocId (.obj fs) ++ showResolvedQuery (.obj fs) (.func k) = _
    rw [show showResolvedDocId (.obj fs) = "" from rfl,
        show showResolvedQuery (.obj fs) (.func k) = "?" ++ qsStringify (.obj fs) from rfl]
    simp
  · rfl

/-- C7, witness: a concrete mapping and callable resolved through the
`show` slots. -/
theorem three_slot_resolution_witness :
    showResolvedDocId (.obj [("key", .str "x")]) = "" ∧
    showResolvedCallback (.obj [("key", .str "x")]) (.func 7) .undefined = .func 7 :=
  ⟨(three_slot_resolution.1 [("key", .str "x")] 7).1,
   (three_slot_resolution.1 [("key", .str "x")] 7).2.2⟩

/-! ## C8: document-variant selection -/

/-- C8.  `database.document(docId, revision)` returns the Design variant
exactly when `docId` is a string carrying the `_design/` prefix, and the
plain Document variant for every other string and for an absent / `null`
id. -/
theorem documentFactory_design_iff :
    (∀ s : String,
        (documentFactory (.str s) = .ok .design ↔ "_design/".toList <+: s.toList)) ∧
    documentFactory .null = .ok .document ∧
    documentFactory .undefined = .ok .document := by
  refine ⟨?_, rfl, rfl⟩
  intro s
  by_cases h : prefixSeq "_design/".toList s.toList
  · have hs : s ≠ "" := by
      rintro rfl
      exact absurd h (by decide)
    have hd : documentFactory (.str s) =
        .ok (if prefixSeq "_design/".toList s.toList then .design else .document) := by
      simp [documentFactory, truthy, hs]
    rw [hd, if_pos h]
    exact iff_of_true rfl ((prefixSeq_iff _ _).mp h)
  · refine iff_of_false ?_ (fun hx => h ((prefixSeq_iff _ _).mpr hx))
    by_cases hs : s = ""
    · subst hs
      intro hx
      exact DocVariant.noConfusion (Except.ok.inj hx)
    · have hd : documentFactory (.str s) =
          .ok (if prefixSeq "_design/".toList s.toList then .design else .document) := by
        simp [documentFactory, truthy, hs]
      rw [hd, if_neg h]
      intro hx
      exact DocVariant.noConfusion (Except.ok.inj hx)

/-- C8, witness: a reserved-prefix id selects the Design variant, a
`null` id the plain Document variant. -/
theorem documentFactory_design_iff_witness :
    documentFactory (.str "_design/blog") = .ok .design ∧
    documentFactory .null = .ok .document :=
  ⟨(documentFactory_design_iff.1 "_design/blog").mpr (by decide),
   documentFactory_design_iff.2.1⟩

/-! ## C9: the listDatabases filtering scenario -/

/-- C9.  With `noCouchRelated = true`, when the Dispatcher delivers the
parsed body `["a", "_replicator", "b"]` (a success, so the continuation
pair is `(null, body)`), `listDatabases` invokes the caller's
continuation with `(null, ["a", "b"])`: the name opening with `_` is
spliced out and the order of the rest is preserved. -/
theorem listDatabases_filter_scenario :
    handleEnd (.ok (.arr [.str "a", .str "_replicator", .str "b"])) =
      (.null, .arr [.str "a", .str "_replicator", .str "b"]) ∧
    listDatabasesCb (.bool true) .null (.arr [.str "a", .str "_replicator", .str "b"]) =
      .ok [.null, .arr [.str "a", .str "b"]] :=
  ⟨rfl, rfl⟩

/-! ## C10: the show-function accessor of a design document -/

/-- C10.  On a design document whose `shows` table is a mapping or still
absent, `show(name, c)` with truthy string content `c` returns the design
document itself and stores `c`, a subsequent `show(name)` returns exactly
`c`; and `show(name)` for a name never stored returns `undefined`,
whether the `shows` table is absent or just lacks the name. -/
theorem design_show_roundtrip :
    (∀ (fs : List (String × JSVal)) (name c : String), c ≠ "" →
        ((∃ sf, lookupField fs "shows" = .obj sf) ∨
          truthy (lookupField fs "shows") = false) →
        ∃ body1, designShow (.obj fs) name (.str c) = .ok (body1, .self) ∧
          designShow body1 name .undefined = .ok (body1, .got (.str c))) ∧
    (∀ (fs : List (String × JSVal)) (name : String),
        truthy (lookupField fs "shows") = false →
        designShow (.obj fs) name .undefined = .ok (.obj fs, .got .undefined)) ∧
    (∀ (fs sf : List (String × JSVal)) (name : String),
        lookupField fs "shows" = .obj sf → lookupField sf name = .undefined →
        designShow (.obj fs) name .undefined = .ok (.obj fs, .got .undefined)) := by
  refine ⟨?_, ?_, ?_⟩
  · intro fs name c hc hsh
    have htc : truthy (.str c) = true := by
      simpa [truthy] using hc
    obtain ⟨sf0, hsf0⟩ : ∃ sf0, jsOr (lookupField fs "shows") (.obj []) = .obj sf0 := by
      rcases hsh with ⟨sf, hsf⟩ | hfal
      · exact ⟨sf, by simp [jsOr, hsf, truthy]⟩
      · exact ⟨[], by simp [jsOr, hfal]⟩
    refine ⟨.obj (setField fs "shows" (.obj (setField sf0 name (.str c)))), ?_, ?_⟩
    · simp [designShow, htc, getField, hsf0, objSet, Bind.bind, Except.bind]
    · simp [designShow, truthy, getField, lookupField_setField_self,
            Bind.bind, Except.bind]
  · intro fs name hfal
    simp [designShow, getField, hfal, Bind.bind, Except.bind,
          show truthy .undefined = false from rfl]
  · intro fs sf name hsf hn
    simp [designShow, truthy, getField, hsf, hn, Bind.bind, Except.bind]

/-- C10, witness: starting from the fresh document body, storing a show
function and reading it back. -/
theorem design_show_roundtrip_witness :
    ∃ body1, designShow initialDocumentBody "recent" (.str "return doc") =
        .ok (body1, .self) ∧
      designShow body1 "recent" .undefined = .ok (body1, .got (.str "return doc")) := by
  have h := design_show_roundtrip.1 [] "recent" "return doc" (by decide)
    (Or.inr (by decide))
  simpa [initialDocumentBody] using h

end Cushion
